import Mathlib

/-!
Verification of the SAT-Prep quiz engine: a shallow embedding of the
performance-analysis and score-prediction services (`AIService.ts`), the
question-assembly service (`QuestionService.ts`) and the quiz-screen state
machine (`QuizScreen`), with theorems settling the specified properties.

JavaScript numbers are modelled as exact rationals extended with the three
non-finite values that actually arise in this code (`NaN`, `Infinity`,
`-Infinity`); machine floating point rounding is not modelled.  Remote calls
(OpenAI, Google search) are modelled by an outcome parameter: the caller of
the embedding supplies whether the call failed and, on success, the parsed
payload.  `Math.random` is modelled by a tape of naturals consumed by the
Fisher-Yates loop.  React `useState` semantics are modelled explicitly:
each event handler reads the render snapshot of the state, queued updates
are applied when the handler ends, and payloads built inside a handler are
computed from the snapshot, not from the queued updates.
-/

/-- A JavaScript number as it occurs in this code: an exact rational, or one
of the non-finite values produced by division by zero. -/
inductive JSNum where
  | num (q : ℚ)
  | nan
  | posInf
  | negInf
  deriving DecidableEq, Repr

/-- JS division of two nonnegative integers (`a / b`): `0/0` is `NaN`,
`a/0` with `a > 0` is `Infinity`, otherwise exact. -/
def jsDiv (a b : ℕ) : JSNum :=
  if b = 0 then (if a = 0 then .nan else .posInf) else .num ((a : ℚ) / b)

/-- JS division of two rationals (used for `sum / length` on a possibly
empty list of elapsed times). -/
def jsDivQ (a b : ℚ) : JSNum :=
  if b = 0 then (if a = 0 then .nan else if 0 < a then .posInf else .negInf)
  else .num (a / b)

/-- The JS `<` comparison: any comparison against `NaN` is false. -/
def jsLt : JSNum → JSNum → Bool
  | .nan, _ => false
  | _, .nan => false
  | .num a, .num b => a < b
  | .num _, .posInf => true
  | .num _, .negInf => false
  | .posInf, _ => false
  | .negInf, .negInf => false
  | .negInf, _ => true

/-- JS falsiness of a number: `0` and `NaN` are falsy. -/
def jsFalsy : JSNum → Bool
  | .num q => q = 0
  | .nan => true
  | _ => false

/-- JS `Math.round` on an exact rational: round half toward positive
infinity. -/
def jsRound (q : ℚ) : ℤ := ⌊q + 1 / 2⌋

/-- The decimal text a JS template literal prints for
`Math.round(x * 100)`. -/
def roundedPctString : JSNum → String
  | .num q => toString (jsRound (q * 100))
  | .nan => "NaN"
  | .posInf => "Infinity"
  | .negInf => "-Infinity"

/-- The eight question categories of `AIService.ts`. -/
inductive QuestionCategory where
  | algebra
  | geometry
  | trigonometry
  | dataAnalysis
  | readingComprehension
  | vocabulary
  | grammar
  | essayWriting
  deriving DecidableEq, Repr

/-- The TS string value of each category. -/
def categoryName : QuestionCategory → String
  | .algebra => "Algebra"
  | .geometry => "Geometry"
  | .trigonometry => "Trigonometry"
  | .dataAnalysis => "Data Analysis"
  | .readingComprehension => "Reading Comprehension"
  | .vocabulary => "Vocabulary"
  | .grammar => "Grammar"
  | .essayWriting => "Essay Writing"

/-- The three difficulty levels of `AIService.ts`. -/
inductive QuestionDifficulty where
  | Easy
  | Medium
  | Hard
  deriving DecidableEq, Repr

/-- The TS string value of each difficulty. -/
def difficultyName : QuestionDifficulty → String
  | .Easy => "Easy"
  | .Medium => "Medium"
  | .Hard => "Hard"

/-- `UserPerformance` from `AIService.ts`. -/
structure UserPerformance where
  correctAnswers : ℕ
  totalQuestions : ℕ
  timeSpent : ℚ
  category : QuestionCategory
  difficulty : QuestionDifficulty
  incorrectQuestionIds : List String
  deriving DecidableEq, Repr

/-- A JS object with category keys, as an insertion-ordered association
list: `Object.entries` iterates in this order. -/
abbrev JSRecord : Type := List (QuestionCategory × JSNum)

/-- Property read `m[k]`: the value at the first matching key, `undefined`
(here `none`) when absent. -/
def jrLookup (m : JSRecord) (c : QuestionCategory) : Option JSNum :=
  match m with
  | [] => none
  | (k, v) :: rest => if k = c then some v else jrLookup rest c

/-- Overwrite the first occurrence of a key, keeping its position. -/
def jrSet (m : JSRecord) (c : QuestionCategory) (v : JSNum) : JSRecord :=
  match m with
  | [] => []
  | (k, w) :: rest => if k = c then (k, v) :: rest else (k, w) :: jrSet rest c v

/-- Property write `m[k] = v`: update in place when the key exists,
append otherwise (JS insertion-order semantics). -/
def jrAssign (m : JSRecord) (c : QuestionCategory) (v : JSNum) : JSRecord :=
  match jrLookup m c with
  | some _ => jrSet m c v
  | none => m ++ [(c, v)]

/-- The body of the `forEach` of `analyzePerformance`: compute
`successRate = correctAnswers / totalQuestions` and assign it when the
stored value is absent or falsy (`!performanceByCategory[perf.category]`)
or when the new rate is strictly smaller. -/
def analyzeStep (acc : JSRecord) (perf : UserPerformance) : JSRecord :=
  let successRate := jsDiv perf.correctAnswers perf.totalQuestions
  match jrLookup acc perf.category with
  | none => jrAssign acc perf.category successRate
  | some v =>
      if jsFalsy v || jsLt successRate v then
        jrAssign acc perf.category successRate
      else acc

/-- `analyzePerformance` from `AIService.ts`: fold `analyzeStep` over the
records, starting from the empty object. -/
def analyzePerformance (performances : List UserPerformance) : JSRecord :=
  performances.foldl analyzeStep []

/-- `StudyRecommendation` from `AIService.ts`. -/
structure StudyRecommendation where
  category : QuestionCategory
  reason : String
  recommendedResources : List String
  recommendedQuestions : List String
  deriving DecidableEq, Repr

/-- `getResourcesForCategory` from `AIService.ts`. -/
def getResourcesForCategory (category : QuestionCategory) : List String :=
  [ "Resource 1 for " ++ categoryName category
  , "Resource 2 for " ++ categoryName category
  , "Resource 3 for " ++ categoryName category ]

/-- `getMockQuestionIdsForCategory` from `AIService.ts`. -/
def getMockQuestionIdsForCategory (_category : QuestionCategory) : List String :=
  ["q1001", "q1002", "q1003", "q1004", "q1005"]

/-- The recommendation object pushed by `generateRecommendations` for one
entry of the weak-areas record. -/
def mkRecommendation (category : QuestionCategory) (score : JSNum) : StudyRecommendation :=
  { category := category
  , reason := "Your success rate of " ++ roundedPctString score
      ++ "% indicates room for improvement"
  , recommendedResources := getResourcesForCategory category
  , recommendedQuestions := getMockQuestionIdsForCategory category }

/-- The body of the `forEach` of `generateRecommendations`: push a
recommendation when the entry's score satisfies `score < 0.7`. -/
def recommendStep (recommendations : List StudyRecommendation)
    (e : QuestionCategory × JSNum) : List StudyRecommendation :=
  if jsLt e.2 (.num (7 / 10)) then recommendations ++ [mkRecommendation e.1 e.2]
  else recommendations

/-- `generateRecommendations` from `AIService.ts`: iterate the record's
entries in insertion order (`Object.entries(...).forEach`) and push a
recommendation for every entry with `score < 0.7`.  No sorting happens. -/
def generateRecommendations (weakAreas : JSRecord) : List StudyRecommendation :=
  weakAreas.foldl recommendStep []

/-- The record returned by `predictSATScore`. -/
structure SATPrediction where
  mathScore : ℤ
  verbalScore : ℤ
  totalScore : ℤ
  deriving DecidableEq, Repr

/-- `predictSATScore` from `AIService.ts`: per section, sum correct and
total over the records with `reduce`, take the ratio when the total is
positive (else `0`), scale by 800 and `Math.round`. -/
def predictSATScore (mathPerformances verbalPerformances : List UserPerformance) :
    SATPrediction :=
  let mathCorrect := mathPerformances.foldl (fun sum perf => sum + perf.correctAnswers) (0 : ℕ)
  let mathTotal := mathPerformances.foldl (fun sum perf => sum + perf.totalQuestions) (0 : ℕ)
  let mathPercentage : ℚ := if 0 < mathTotal then (mathCorrect : ℚ) / mathTotal else 0
  let predictedMathScore := jsRound (mathPercentage * 800)
  let verbalCorrect := verbalPerformances.foldl (fun sum perf => sum + perf.correctAnswers) (0 : ℕ)
  let verbalTotal := verbalPerformances.foldl (fun sum perf => sum + perf.totalQuestions) (0 : ℕ)
  let verbalPercentage : ℚ := if 0 < verbalTotal then (verbalCorrect : ℚ) / verbalTotal else 0
  let predictedVerbalScore := jsRound (verbalPercentage * 800)
  { mathScore := predictedMathScore
  , verbalScore := predictedVerbalScore
  , totalScore := predictedMathScore + predictedVerbalScore }

/-- The per-section score as the spec states it: sum `correct` and sum
`totalQuestions` across the record group, `round((correctSum / totalSum) *
800)`, and `0` when `totalSum == 0`. -/
def sectionScoreSpec (records : List UserPerformance) : ℤ :=
  let correctSum : ℕ := (records.map (·.correctAnswers)).sum
  let totalSum : ℕ := (records.map (·.totalQuestions)).sum
  if totalSum = 0 then 0 else jsRound ((correctSum : ℚ) / totalSum * 800)

/-- `Question` from `AIService.ts` (the shape `generateAIQuestions`
returns).  `createdAt` is the `Date.now()` timestamp supplied by the
caller of the embedding. -/
structure AIQuestion where
  id : String
  question : String
  options : List String
  correctAnswer : ℤ
  explanation : String
  category : QuestionCategory
  difficulty : QuestionDifficulty
  createdAt : ℕ
  isGenerated : Bool
  source : Option String
  deriving DecidableEq, Repr

/-- One object of the JSON array parsed out of the model's response in
`generateAIQuestions`.  `JSON.parse` performs no shape validation, so the
index and the options list are arbitrary. -/
structure ParsedQuestion where
  question : String
  options : List String
  correctAnswerIndex : ℤ
  explanation : String
  deriving DecidableEq, Repr

/-- The outcome of one `generateAIQuestions` attempt, supplied by the
environment: the three failure classes all land in the `catch` block of
the source, a success carries the parsed `questions` array. -/
inductive GenOutcome where
  | noApiKeys
  | transportFailure
  | parseFailure
  | success (payload : List ParsedQuestion)
  deriving DecidableEq, Repr

/-- Whether the outcome takes the `catch` path. -/
def GenOutcome.isFailure : GenOutcome → Bool
  | .noApiKeys => true
  | .transportFailure => true
  | .parseFailure => true
  | .success _ => false

/-- `getMockQuestionsForCategory` from `AIService.ts`: `count` template
questions, ids `gen_<Date.now()>_<i>`, tagged `isGenerated: true`. -/
def getMockQuestionsForCategory (now : ℕ) (category : QuestionCategory)
    (difficulty : QuestionDifficulty) (count : ℕ) : List AIQuestion :=
  (List.range count).map fun i =>
    { id := "gen_" ++ toString now ++ "_" ++ toString i
    , question := "This is a sample " ++ categoryName category ++ " question of "
        ++ difficultyName difficulty ++ " difficulty."
    , options := ["Option A", "Option B", "Option C", "Option D"]
    , correctAnswer := 0
    , explanation := "This is an explanation for the correct answer."
    , category := category
    , difficulty := difficulty
    , createdAt := now
    , isGenerated := true
    , source := some "GPT-4o (Mock)" }

/-- `generateAIQuestions` from `AIService.ts`: on success, map the parsed
objects to questions with ids `ai_<Date.now()>_<index>` (the parsed
`correctAnswerIndex` is passed through unvalidated); on any failure the
`catch` block returns the template questions instead of propagating. -/
def generateAIQuestions (outcome : GenOutcome) (now : ℕ) (category : QuestionCategory)
    (difficulty : QuestionDifficulty) (count : ℕ) : List AIQuestion :=
  match outcome with
  | .success questionsData =>
      questionsData.enum.map fun e =>
        { id := "ai_" ++ toString now ++ "_" ++ toString e.1
        , question := e.2.question
        , options := e.2.options
        , correctAnswer := e.2.correctAnswerIndex
        , explanation := e.2.explanation
        , category := category
        , difficulty := difficulty
        , createdAt := now
        , isGenerated := true
        , source := some "GPT-4" }
  | _ => getMockQuestionsForCategory now category difficulty count

/-- `Question` from `QuestionService.ts`.  `isAIGenerated` is optional in
TS and absent on catalog questions; absence is modelled as `false`. -/
structure Question where
  id : String
  text : String
  options : List String
  correctAnswer : ℤ
  explanation : String
  category : QuestionCategory
  difficulty : QuestionDifficulty
  lastUpdated : String
  isAIGenerated : Bool
  deriving DecidableEq, Repr

/-- The default used only for out-of-range JS index reads. -/
instance : Inhabited Question :=
  ⟨{ id := "", text := "", options := [], correctAnswer := 0, explanation := ""
   , category := .algebra, difficulty := .Easy, lastUpdated := "", isAIGenerated := false }⟩

/-- The static `mockQuestions` catalog of `QuestionService.ts`. -/
def mockQuestions : List Question :=
  [ { id := "math001"
    , text := "If 3x + 7 = 22, what is the value of x?"
    , options := ["3", "4", "5", "6"]
    , correctAnswer := 2
    , explanation := "To solve for x, subtract 7 from both sides: 3x = 15. Then divide both sides by 3: x = 5."
    , category := .algebra
    , difficulty := .Easy
    , lastUpdated := "2024-01-15T12:00:00Z"
    , isAIGenerated := false }
  , { id := "math002"
    , text := "What is the solution to the equation 2x² - 5x - 3 = 0?"
    , options := ["x = -0.5 or x = 3", "x = 0.5 or x = 3", "x = -0.5 or x = -3", "x = 0.5 or x = -3"]
    , correctAnswer := 0
    , explanation := "Using the quadratic formula, x = (-b ± √(b² - 4ac))/(2a), where a=2, b=-5, c=-3. This gives x = (-(-5) ± √(25 + 24))/(2(2)) = (5 ± √49)/4 = (5 ± 7)/4, which simplifies to x = -0.5 or x = 3."
    , category := .algebra
    , difficulty := .Medium
    , lastUpdated := "2024-02-10T09:30:00Z"
    , isAIGenerated := false }
  , { id := "math003"
    , text := "In a right triangle, one angle is 90° and another is 35°. What is the measure of the third angle?"
    , options := ["45°", "55°", "65°", "75°"]
    , correctAnswer := 1
    , explanation := "The sum of angles in a triangle is 180°. If one angle is 90° and another is 35°, then the third angle is 180° - 90° - 35° = 55°."
    , category := .geometry
    , difficulty := .Easy
    , lastUpdated := "2024-01-20T14:15:00Z"
    , isAIGenerated := false }
  , { id := "verbal001"
    , text := "Based on the passage, the author's primary purpose is to:"
    , options := ["criticize a traditional approach", "advocate for a new perspective", "explain a complex phenomenon", "compare competing theories"]
    , correctAnswer := 2
    , explanation := "The author spends most of the passage explaining the details of the phenomenon rather than arguing for a particular position or comparing different viewpoints."
    , category := .readingComprehension
    , difficulty := .Medium
    , lastUpdated := "2024-02-05T10:45:00Z"
    , isAIGenerated := false }
  , { id := "verbal002"
    , text := "Choose the option that best corrects the underlined portion of the sentence: The team of scientists, led by Dr. Chen, have made a significant breakthrough."
    , options := ["have made", "has made", "are making", "is making"]
    , correctAnswer := 1
    , explanation := "The subject of the sentence is \"team\" (singular), not \"scientists,\" so it requires a singular verb form: \"has made.\""
    , category := .grammar
    , difficulty := .Easy
    , lastUpdated := "2024-01-25T08:20:00Z"
    , isAIGenerated := false } ]

/-- `QuizConfig` from `QuestionService.ts`. -/
structure QuizConfig where
  categories : Option (List QuestionCategory)
  difficulty : Option QuestionDifficulty
  count : ℕ
  useAI : Bool
  deriving DecidableEq, Repr

/-- Swap two positions of a list; out-of-range indices leave the list
unchanged (in `shuffleArray`'s loop both indices are always in range). -/
def listSwap {α : Type} (l : List α) (i j : ℕ) : List α :=
  match l.get? i, l.get? j with
  | some a, some b => (l.set i b).set j a
  | _, _ => l

/-- The Fisher-Yates loop of `shuffleArray`: for `i` from `len - 1` down to
`1`, swap position `i` with position `r % (i + 1)` where `r` is drawn from
the random tape (`Math.floor(Math.random() * (i + 1))`). -/
def shuffleLoop {α : Type} : List ℕ → ℕ → List α → List α
  | _, 0, l => l
  | [], _ + 1, l => l
  | r :: tape, i + 1, l => shuffleLoop tape i (listSwap l (i + 1) (r % (i + 2)))

/-- `shuffleArray` from `QuestionService.ts`, the randomness supplied as a
tape of naturals. -/
def shuffleArray {α : Type} (tape : List ℕ) (l : List α) : List α :=
  shuffleLoop tape (l.length - 1) l

/-- The category filter of `getQuestions`: applied only when
`config.categories` is present and non-empty. -/
def categoryMatches (config : QuizConfig) (q : Question) : Bool :=
  match config.categories with
  | some cs => if 0 < cs.length then cs.contains q.category else true
  | none => true

/-- The difficulty filter of `getQuestions`: applied only when
`config.difficulty` is present. -/
def difficultyMatches (config : QuizConfig) (q : Question) : Bool :=
  match config.difficulty with
  | some d => q.difficulty == d
  | none => true

/-- `filteredQuestions ++ matchingAIQuestions` of `getQuestions`: the
catalog filtered by category then difficulty, followed by the stored
AI-generated pool filtered by the combined predicate. -/
def matchingUniverse (aiPool : List Question) (config : QuizConfig) : List Question :=
  (mockQuestions.filter (categoryMatches config)).filter (difficultyMatches config)
    ++ aiPool.filter (fun q => categoryMatches config q && difficultyMatches config q)

/-- The conversion applied to each AI question inside `getQuestions`
(`lastUpdated := new Date().toISOString()` is modelled by the timestamp's
text). -/
def convertQuestion (now : ℕ) (q : AIQuestion) : Question :=
  { id := q.id
  , text := q.question
  , options := q.options
  , correctAnswer := q.correctAnswer
  , explanation := q.explanation
  , category := q.category
  , difficulty := q.difficulty
  , lastUpdated := toString now
  , isAIGenerated := true }

/-- `Math.ceil(a / b)` on naturals (`b > 0` at every call site). -/
def jsCeilDiv (a b : ℕ) : ℕ := (a + b - 1) / b

/-- The fixed category rotation of the no-categories branch of
`getQuestions`. -/
def defaultCategories : List QuestionCategory :=
  [.algebra, .readingComprehension, .grammar, .geometry]

/-- The questions appended by the AI-augmentation loop of `getQuestions`:
one `generateAIQuestions` batch per category (difficulty defaults to
Medium, per-category count `Math.ceil(neededCount / categoryCount)`),
each converted and concatenated in loop order. -/
def augmentedBatch (config : QuizConfig) (outcomes : QuestionCategory → GenOutcome)
    (now : ℕ) (neededCount : ℕ) : List Question :=
  let difficulty := config.difficulty.getD .Medium
  let runCategories := fun (cats : List QuestionCategory) (k : ℕ) =>
    (cats.map fun c => (generateAIQuestions (outcomes c) now c difficulty k).map
      (convertQuestion now)).flatten
  match config.categories with
  | some cs =>
      if 0 < cs.length then runCategories cs (jsCeilDiv neededCount cs.length)
      else runCategories defaultCategories (jsCeilDiv neededCount 4)
  | none => runCategories defaultCategories (jsCeilDiv neededCount 4)

/-- `getQuestions` from `QuestionService.ts`: filter, shuffle, augment via
AI when `useAI` is set and the pool is short, re-shuffle, and
`slice(0, config.count)`.  The append to the module-level
`aiGeneratedQuestions` cache is a side effect not needed by any claim and
is not modelled. -/
def getQuestions (aiPool : List Question) (config : QuizConfig)
    (tape1 tape2 : List ℕ) (outcomes : QuestionCategory → GenOutcome) (now : ℕ) :
    List Question :=
  let allQuestions := shuffleArray tape1 (matchingUniverse aiPool config)
  let allQuestions2 :=
    if config.useAI = true ∧ allQuestions.length < config.count then
      shuffleArray tape2
        (allQuestions ++ augmentedBatch config outcomes now (config.count - allQuestions.length))
    else allQuestions
  allQuestions2.take config.count

/-- The multiset of candidate questions a `getQuestions` call draws from,
before any shuffling and truncation. -/
def assembleUniverse (aiPool : List Question) (config : QuizConfig)
    (outcomes : QuestionCategory → GenOutcome) (now : ℕ) : List Question :=
  let base := matchingUniverse aiPool config
  if config.useAI = true ∧ base.length < config.count then
    base ++ augmentedBatch config outcomes now (config.count - base.length)
  else base

/-- The `results` tallies of `QuizScreen`. -/
structure Tallies where
  correct : ℕ
  incorrect : ℕ
  skipped : ℕ
  deriving DecidableEq, Repr

/-- The `useState` variables of `QuizScreen` that the quiz logic touches
(styling, the passage and the progress animation are omitted).
Timestamps and durations are rationals; `Date.now()` values are supplied
with each user action. -/
structure QuizState where
  questions : List Question
  currentQuestionIndex : ℕ
  selectedAnswer : Option ℤ
  isAnswerSubmitted : Bool
  quizStartTime : ℚ
  questionStartTime : ℚ
  timePerQuestion : List ℚ
  results : Tallies
  deriving DecidableEq, Repr

/-- The `results` object `finishQuiz` passes to the Results screen. -/
structure ResultsPayload where
  correct : ℕ
  incorrect : ℕ
  skipped : ℕ
  totalQuestions : ℕ
  timeSpent : ℚ
  averageTimePerQuestion : JSNum
  deriving DecidableEq, Repr

/-- The navigation a handler can trigger: `navigation.goBack()` or
`navigation.navigate('Results', ...)`. -/
inductive NavEvent where
  | back
  | results (payload : ResultsPayload)
  deriving DecidableEq, Repr

/-- The state right after `loadQuestions` succeeds at time `t0`: index 0,
nothing selected, zero tallies, both timers set to now.  (The mount run of
the question-transition effect appends nothing since the index is 0.) -/
def initState (questions : List Question) (t0 : ℚ) : QuizState :=
  { questions := questions
  , currentQuestionIndex := 0
  , selectedAnswer := none
  , isAnswerSubmitted := false
  , quizStartTime := t0
  , questionStartTime := t0
  , timePerQuestion := []
  , results := { correct := 0, incorrect := 0, skipped := 0 } }

/-- `handleSelectAnswer`: records the choice while the answer is not yet
submitted. -/
def handleSelectAnswer (index : ℤ) (s : QuizState) : QuizState :=
  if s.isAnswerSubmitted = false then { s with selectedAnswer := some index } else s

/-- `handleSubmitAnswer`: with no selection it only shows an alert;
otherwise it compares the selection with `questions[currentQuestionIndex]`
and increments `correct` or `incorrect`.  There is no guard on
`isAnswerSubmitted`. -/
def handleSubmitAnswer (s : QuizState) : QuizState :=
  match s.selectedAnswer with
  | none => s
  | some selectedAnswer =>
      let currentQuestion := s.questions.getD s.currentQuestionIndex default
      let isCorrect := selectedAnswer = currentQuestion.correctAnswer
      { s with
          results :=
            { correct := if isCorrect then s.results.correct + 1 else s.results.correct
            , incorrect := if ¬isCorrect then s.results.incorrect + 1 else s.results.incorrect
            , skipped := s.results.skipped }
        , isAnswerSubmitted := true }

/-- The question-transition `useEffect` of `QuizScreen`, run after a
render in which `currentQuestionIndex` changed: reset selection and
submission, append the elapsed time of the *previous* question when the
index is positive (`questionStartTime` has not yet been reset), and
restart the question timer. -/
def questionTransitionEffect (now : ℚ) (s : QuizState) : QuizState :=
  { s with
      selectedAnswer := none
    , isAnswerSubmitted := false
    , timePerQuestion :=
        if 0 < s.currentQuestionIndex then
          s.timePerQuestion ++ [(now - s.questionStartTime) / 1000]
        else s.timePerQuestion
    , questionStartTime := now }

/-- `finishQuiz`: the Results payload, computed from the render snapshot
`s` (`averageTimePerQuestion` is `reduce(+, 0) / length`, which is `0/0 =
NaN` on an empty list).  The `performanceData` record and the
`updateProgress` context call are side channels no claim touches and are
not modelled. -/
def finishQuiz (now : ℚ) (s : QuizState) : ResultsPayload :=
  { correct := s.results.correct
  , incorrect := s.results.incorrect
  , skipped := s.results.skipped
  , totalQuestions := s.questions.length
  , timeSpent := (now - s.quizStartTime) / 1000
  , averageTimePerQuestion :=
      jsDivQ (s.timePerQuestion.foldl (· + ·) 0) (s.timePerQuestion.length : ℚ) }

/-- `handleNextQuestion` at time `now`: on a non-final question the index
advances and the transition effect runs on the committed state; on the
final question `finishQuiz` materializes the payload from the current
snapshot (no state update is queued). -/
def handleNextQuestion (now : ℚ) (s : QuizState) : QuizState × Option NavEvent :=
  if s.currentQuestionIndex < s.questions.length - 1 then
    (questionTransitionEffect now { s with currentQuestionIndex := s.currentQuestionIndex + 1 }, none)
  else
    (s, some (.results (finishQuiz now s)))

/-- `handleSkipQuestion` at time `now`: it queues `skipped + 1` and the
elapsed-time append; on a non-final question the index advances and the
transition effect runs on the committed state; on the final question
`finishQuiz` runs *inside the same handler* and therefore reads the render
snapshot `s`, in which the two queued updates are not yet visible — the
committed state still receives them. -/
def handleSkipQuestion (now : ℚ) (s : QuizState) : QuizState × Option NavEvent :=
  let results' : Tallies :=
    { correct := s.results.correct, incorrect := s.results.incorrect
    , skipped := s.results.skipped + 1 }
  let timePerQuestion' := s.timePerQuestion ++ [(now - s.questionStartTime) / 1000]
  if s.currentQuestionIndex < s.questions.length - 1 then
    (questionTransitionEffect now
      { s with results := results', timePerQuestion := timePerQuestion'
             , currentQuestionIndex := s.currentQuestionIndex + 1 }, none)
  else
    ({ s with results := results', timePerQuestion := timePerQuestion' },
      some (.results (finishQuiz now s)))

/-- The confirmed Quit-Quiz handler of `QuizScreen`: `navigation.goBack()`
with no state change and no materialized result. -/
def handleQuitQuiz (s : QuizState) : QuizState × Option NavEvent :=
  (s, some .back)

/-- One answered question: select a choice, submit it, press Next (or
Finish on the last question) at time `now`. -/
def answerStep (choice : ℤ) (now : ℚ) (s : QuizState) : QuizState × Option NavEvent :=
  handleNextQuestion now (handleSubmitAnswer (handleSelectAnswer choice s))

/-- Drive a session by answering question after question; stops at the
first navigation event (the finish transition). -/
def answerAll : List (ℤ × ℚ) → QuizState → QuizState × Option NavEvent
  | [], s => (s, none)
  | (choice, now) :: rest, s =>
      match answerStep choice now s with
      | (s', none) => answerAll rest s'
      | (s', some ev) => (s', some ev)

/-- Whether a navigation event carries a Results payload. -/
def NavEvent.isResults : NavEvent → Bool
  | .back => false
  | .results _ => true

/-- The success rates a category's records produce, in record order, as the
spec describes them (`successRate = correct / totalQuestions`). -/
def ratesOf (c : QuestionCategory) (performances : List UserPerformance) : List ℚ :=
  (performances.filter (fun p => p.category == c)).map
    (fun p => (p.correctAnswers : ℚ) / p.totalQuestions)

/-- The minimum of a list of rationals, `none` on the empty list. -/
def minQ? : List ℚ → Option ℚ
  | [] => none
  | x :: xs => some (xs.foldl min x)

/-- Merge a stored (optional) value with the (optional) minimum of the
rates still to come; only the `num` case is ever reached when all stored
values are finite. -/
def minMerge : Option JSNum → Option ℚ → Option JSNum
  | o, none => o
  | none, some q => some (.num q)
  | some (.num a), some q => some (.num (min a q))
  | some v, some _ => some v

/-- A record whose stored values are all positive finite numbers. -/
def PosRecord (m : JSRecord) : Prop :=
  ∀ k v, jrLookup m k = some v → ∃ q : ℚ, 0 < q ∧ v = .num q

/-- A performance record fixture. -/
def examplePerf (cat : QuestionCategory) (c t : ℕ) : UserPerformance :=
  { correctAnswers := c, totalQuestions := t, timeSpent := 0, category := cat
  , difficulty := .Medium, incorrectQuestionIds := [] }

/-- Two Algebra records whose rates are 0 and 0.9: the zero rate is falsy,
so the second record overwrites it. -/
def zeroRatePerfs : List UserPerformance :=
  [examplePerf .algebra 0 10, examplePerf .algebra 9 10]

/-- Two Algebra records whose rates are 0.9 and 0.4. -/
def algebraPerfs : List UserPerformance :=
  [examplePerf .algebra 9 10, examplePerf .algebra 4 10]

/-- A weak-areas record listing Algebra (rate 0.5) before Geometry
(rate 0.3). -/
def unsortedWeakAreas : JSRecord :=
  [(.algebra, .num (1 / 2)), (.geometry, .num (3 / 10))]

/-- A minimal question fixture. -/
def mkQ (i : ℕ) : Question :=
  { id := "q" ++ toString i, text := "t", options := ["A", "B", "C", "D"]
  , correctAnswer := 0, explanation := "e", category := .algebra
  , difficulty := .Easy, lastUpdated := "d", isAIGenerated := false }

/-- A ten-question session fixture. -/
def qs10 : List Question := (List.range 10).map mkQ

/-- The state after answering the first three questions of `qs10`. -/
def sAfter3 : QuizState := (answerAll [(0, 1), (0, 2), (0, 3)] (initState qs10 0)).1

/-- A three-question session driven skip, skip, answer: the two skipped
questions each contribute two elapsed-time entries (the skip handler and
the question-transition effect both append one). -/
def skipSkipAnswerTrace : QuizState × Option NavEvent :=
  let r1 := handleSkipQuestion 1 (initState [mkQ 0, mkQ 1, mkQ 2] 0)
  let r2 := handleSkipQuestion 2 r1.1
  answerStep 0 3 r2.1

/-- A syntactically valid response payload whose correct-option index (7)
is out of range for its four options; `generateAIQuestions` does not
validate it. -/
def badPayload : List ParsedQuestion :=
  [{ question := "q", options := ["A", "B", "C", "D"], correctAnswerIndex := 7
   , explanation := "e" }]

/-- An Algebra-only configuration asking for 10 questions without AI
augmentation. -/
def cfgNoAI : QuizConfig :=
  { categories := some [.algebra], difficulty := none, count := 10, useAI := false }

/-- An Algebra-only configuration asking for 10 questions with AI
augmentation. -/
def cfgAI : QuizConfig :=
  { categories := some [.algebra], difficulty := none, count := 10, useAI := true }

/-- The Results payload a navigation event carries, if any. -/
def NavEvent.payload? : NavEvent → Option ResultsPayload
  | .back => none
  | .results p => some p

/-! Helper lemmas.  (All definitions stand above this line.) -/

theorem jrLookup_append_of_none (m m' : JSRecord) (c : QuestionCategory)
    (h : jrLookup m c = none) : jrLookup (m ++ m') c = jrLookup m' c := by
  induction m with
  | nil => rfl
  | cons e rest ih =>
      obtain ⟨k, v⟩ := e
      by_cases hk : k = c
      · simp [jrLookup, hk] at h
      · simpa [jrLookup, hk] using ih (by simpa [jrLookup, hk] using h)

theorem jrLookup_jrSet_self (m : JSRecord) (c : QuestionCategory) (v : JSNum)
    (h : (jrLookup m c).isSome) : jrLookup (jrSet m c v) c = some v := by
  induction m with
  | nil => simp [jrLookup] at h
  | cons e rest ih =>
      obtain ⟨k, w⟩ := e
      by_cases hk : k = c
      · simp [jrSet, jrLookup, hk]
      · simpa [jrSet, jrLookup, hk] using ih (by simpa [jrLookup, hk] using h)

theorem jrLookup_jrSet_ne (m : JSRecord) (c c' : QuestionCategory) (v : JSNum)
    (h : c' ≠ c) : jrLookup (jrSet m c v) c' = jrLookup m c' := by
  induction m with
  | nil => rfl
  | cons e rest ih =>
      obtain ⟨k, w⟩ := e
      by_cases hk : k = c
      · subst hk
        simp [jrSet, jrLookup, Ne.symm h]
      · simp [jrSet, jrLookup, hk, ih]

theorem jrLookup_jrAssign_self (m : JSRecord) (c : QuestionCategory) (v : JSNum) :
    jrLookup (jrAssign m c v) c = some v := by
  unfold jrAssign
  cases h : jrLookup m c with
  | some w =>
      exact jrLookup_jrSet_self m c v (by simp [h])
  | none =>
      rw [jrLookup_append_of_none m _ c h]
      simp [jrLookup]

theorem jrLookup_jrAssign_ne (m : JSRecord) (c c' : QuestionCategory) (v : JSNum)
    (h : c' ≠ c) : jrLookup (jrAssign m c v) c' = jrLookup m c' := by
  unfold jrAssign
  cases hm : jrLookup m c with
  | some w => exact jrLookup_jrSet_ne m c c' v h
  | none =>
      induction m with
      | nil => simp [jrLookup, Ne.symm h]
      | cons e rest ih =>
          obtain ⟨k, w⟩ := e
          by_cases hk : k = c'
          · simp [jrLookup, hk]
          · by_cases hkc : k = c
            · simp [jrLookup, hkc] at hm
            · simpa [jrLookup, hk] using ih (by simpa [jrLookup, hkc] using hm)

theorem foldl_min_min (xs : List ℚ) (a b : ℚ) :
    xs.foldl min (min a b) = min a (xs.foldl min b) := by
  induction xs generalizing b with
  | nil => rfl
  | cons x xs ih =>
      simp only [List.foldl_cons]
      rw [min_assoc, ih]

theorem minQ?_cons (r : ℚ) (l : List ℚ) :
    minQ? (r :: l) = some (match minQ? l with | none => r | some m => min r m) := by
  cases l with
  | nil => rfl
  | cons x xs =>
      simp only [minQ?, List.foldl_cons]
      rw [foldl_min_min]

theorem analyzeStep_lookup (m : JSRecord) (p : UserPerformance)
    (_hc : 0 < p.correctAnswers) (ht : 0 < p.totalQuestions) (hm : PosRecord m)
    (c' : QuestionCategory) :
    jrLookup (analyzeStep m p) c' =
      if c' = p.category then
        minMerge (jrLookup m p.category)
          (some ((p.correctAnswers : ℚ) / p.totalQuestions))
      else jrLookup m c' := by
  have hdiv : jsDiv p.correctAnswers p.totalQuestions =
      .num ((p.correctAnswers : ℚ) / p.totalQuestions) := by
    unfold jsDiv
    simp [Nat.pos_iff_ne_zero.mp ht]
  cases hlook : jrLookup m p.category with
  | none =>
      have hstep : analyzeStep m p =
          jrAssign m p.category (.num ((p.correctAnswers : ℚ) / p.totalQuestions)) := by
        simp [analyzeStep, hdiv, hlook]
      rw [hstep]
      by_cases hcc : c' = p.category
      · subst hcc
        rw [jrLookup_jrAssign_self]
        simp [minMerge]
      · rw [jrLookup_jrAssign_ne m p.category c' _ hcc, if_neg hcc]
  | some v =>
      obtain ⟨a, ha, rfl⟩ := hm p.category v hlook
      have hfalsy : jsFalsy (.num a) = false := by
        simp [jsFalsy, ne_of_gt ha]
      by_cases hlt : (p.correctAnswers : ℚ) / p.totalQuestions < a
      · have hjslt : jsLt (.num ((p.correctAnswers : ℚ) / p.totalQuestions)) (.num a) = true := by
          simpa [jsLt] using hlt
        have hstep : analyzeStep m p =
            jrAssign m p.category (.num ((p.correctAnswers : ℚ) / p.totalQuestions)) := by
          simp [analyzeStep, hdiv, hlook, hfalsy, hjslt]
        rw [hstep]
        by_cases hcc : c' = p.category
        · subst hcc
          rw [jrLookup_jrAssign_self, if_pos rfl]
          simp [minMerge, min_eq_right (le_of_lt hlt)]
        · rw [jrLookup_jrAssign_ne m p.category c' _ hcc, if_neg hcc]
      · have hjslt : jsLt (.num ((p.correctAnswers : ℚ) / p.totalQuestions)) (.num a) = false := by
          simpa [jsLt] using hlt
        have hstep : analyzeStep m p = m := by
          simp [analyzeStep, hdiv, hlook, hfalsy, hjslt]
        rw [hstep]
        by_cases hcc : c' = p.category
        · subst hcc
          rw [hlook, if_pos rfl]
          simp [minMerge, min_eq_left (le_of_not_lt hlt)]
        · rw [if_neg hcc]

theorem analyzeStep_posRecord (m : JSRecord) (p : UserPerformance)
    (hc : 0 < p.correctAnswers) (ht : 0 < p.totalQuestions) (hm : PosRecord m) :
    PosRecord (analyzeStep m p) := by
  have hrate : (0 : ℚ) < (p.correctAnswers : ℚ) / p.totalQuestions :=
    div_pos (by exact_mod_cast hc) (by exact_mod_cast ht)
  intro k v hv
  rw [analyzeStep_lookup m p hc ht hm k] at hv
  by_cases hk : k = p.category
  · rw [if_pos hk] at hv
    cases hlook : jrLookup m p.category with
    | none =>
        rw [hlook] at hv
        simp only [minMerge] at hv
        exact ⟨_, hrate, (Option.some_injective _ hv).symm⟩
    | some w =>
        obtain ⟨a, ha, rfl⟩ := hm p.category w hlook
        rw [hlook] at hv
        simp only [minMerge] at hv
        refine ⟨min a ((p.correctAnswers : ℚ) / p.totalQuestions), lt_min ha hrate,
          (Option.some_injective _ hv).symm⟩
  · rw [if_neg hk] at hv
    exact hm k v hv

theorem ratesOf_cons_self (p : UserPerformance) (rest : List UserPerformance) :
    ratesOf p.category (p :: rest) =
      (p.correctAnswers : ℚ) / p.totalQuestions :: ratesOf p.category rest := by
  simp [ratesOf, List.filter_cons]

theorem ratesOf_cons_ne (c : QuestionCategory) (p : UserPerformance)
    (rest : List UserPerformance) (h : c ≠ p.category) :
    ratesOf c (p :: rest) = ratesOf c rest := by
  have : (p.category == c) = false := by
    simpa using Ne.symm h
  simp [ratesOf, List.filter_cons, this]

theorem minMerge_step (o : Option JSNum) (r : ℚ) (L : List ℚ)
    (ho : o = none ∨ ∃ a : ℚ, o = some (.num a)) :
    minMerge (minMerge o (some r)) (minQ? L) = minMerge o (minQ? (r :: L)) := by
  rw [minQ?_cons]
  rcases ho with rfl | ⟨a, rfl⟩
  · cases hL : minQ? L with
    | none => simp [minMerge]
    | some mL => simp [minMerge]
  · cases hL : minQ? L with
    | none => simp [minMerge]
    | some mL => simp [minMerge, min_assoc]

theorem analyze_foldl_min (performances : List UserPerformance) (m : JSRecord)
    (hperf : ∀ p ∈ performances, 0 < p.correctAnswers ∧ 0 < p.totalQuestions)
    (hm : PosRecord m) :
    PosRecord (performances.foldl analyzeStep m) ∧
      ∀ c, jrLookup (performances.foldl analyzeStep m) c =
        minMerge (jrLookup m c) (minQ? (ratesOf c performances)) := by
  induction performances generalizing m with
  | nil =>
      refine ⟨hm, fun c => ?_⟩
      simp [ratesOf, minQ?, minMerge]
  | cons p rest ih =>
      obtain ⟨hc, ht⟩ := hperf p (List.mem_cons_self p rest)
      have hrest : ∀ q ∈ rest, 0 < q.correctAnswers ∧ 0 < q.totalQuestions :=
        fun q hq => hperf q (List.mem_cons_of_mem p hq)
      have hm' : PosRecord (analyzeStep m p) := analyzeStep_posRecord m p hc ht hm
      obtain ⟨hpos, hchar⟩ := ih (analyzeStep m p) hrest hm'
      refine ⟨by simpa [List.foldl_cons] using hpos, fun c => ?_⟩
      rw [List.foldl_cons, hchar c, analyzeStep_lookup m p hc ht hm c]
      by_cases hcc : c = p.category
      · subst hcc
        rw [if_pos rfl, ratesOf_cons_self]
        apply minMerge_step
        cases hlook : jrLookup m p.category with
        | none => exact Or.inl rfl
        | some v =>
            obtain ⟨a, _, rfl⟩ := hm p.category v hlook
            exact Or.inr ⟨a, rfl⟩
      · rw [if_neg hcc, ratesOf_cons_ne c p rest hcc]

theorem foldl_recommendStep (weakAreas : JSRecord) (acc : List StudyRecommendation) :
    weakAreas.foldl recommendStep acc =
      acc ++ (weakAreas.filter (fun e => jsLt e.2 (.num (7 / 10)))).map
        (fun e => mkRecommendation e.1 e.2) := by
  induction weakAreas generalizing acc with
  | nil => simp
  | cons e rest ih =>
      by_cases h : jsLt e.2 (.num (7 / 10)) = true
      · simp [recommendStep, h, ih, List.filter_cons]
      · simp [recommendStep, h, ih, List.filter_cons,
          Bool.not_eq_true _ ▸ Bool.of_not_eq_true h]

theorem foldl_correct_sum (l : List UserPerformance) (n : ℕ) :
    l.foldl (fun sum perf => sum + perf.correctAnswers) n =
      n + (l.map (·.correctAnswers)).sum := by
  induction l generalizing n with
  | nil => simp
  | cons p rest ih => simp [ih, Nat.add_assoc]

theorem foldl_total_sum (l : List UserPerformance) (n : ℕ) :
    l.foldl (fun sum perf => sum + perf.totalQuestions) n =
      n + (l.map (·.totalQuestions)).sum := by
  induction l generalizing n with
  | nil => simp
  | cons p rest ih => simp [ih, Nat.add_assoc]

/-- C2 counterexample: on two Algebra records whose rates are 0 and 0.9
(in that order), `analyzePerformance` reports 0.9, not the minimum 0: the
stored rate 0 is falsy, so the guard `!performanceByCategory[category]`
treats it as absent and the later, larger rate overwrites it. -/
theorem analyzePerformance_zero_rate_cex :
    jrLookup (analyzePerformance zeroRatePerfs) .algebra = some (.num (9 / 10))
    ∧ minQ? (ratesOf .algebra zeroRatePerfs) = some 0
    ∧ JSNum.num (9 / 10) ≠ JSNum.num 0 := by
  refine ⟨?_, ?_, ?_⟩
  · norm_num [analyzePerformance, zeroRatePerfs, examplePerf, analyzeStep, jsDiv, jrLookup,
      jrAssign, jrSet, jsFalsy, jsLt, List.foldl]
  · norm_num [minQ?, ratesOf, zeroRatePerfs, examplePerf, List.filter, List.foldl]
  · intro h
    rw [JSNum.num.injEq] at h
    norm_num at h

/-- C2 (amended): when every record has positive `correctAnswers` and
positive `totalQuestions` (so every rate is a positive finite number and no
stored value is ever falsy), `analyzePerformance` maps each category
present in the input to the minimum success rate over that category's
records, and maps absent categories to nothing. -/
theorem analyzePerformance_min_of_pos (performances : List UserPerformance)
    (h : ∀ p ∈ performances, 0 < p.correctAnswers ∧ 0 < p.totalQuestions) :
    ∀ c, jrLookup (analyzePerformance performances) c =
      (minQ? (ratesOf c performances)).map JSNum.num := by
  intro c
  have hempty : PosRecord [] := by
    intro k v hv
    simp [jrLookup] at hv
  have hchar := (analyze_foldl_min performances [] h hempty).2 c
  rw [analyzePerformance, hchar]
  cases minQ? (ratesOf c performances) with
  | none => rfl
  | some q => rfl

/-- C2 witness: two Algebra records with rates 0.9 and 0.4 yield 0.4. -/
theorem analyzePerformance_min_witness :
    jrLookup (analyzePerformance algebraPerfs) .algebra = some (.num (2 / 5)) :=
  (analyzePerformance_min_of_pos algebraPerfs (by decide) .algebra).trans
    (by norm_num [minQ?, ratesOf, algebraPerfs, examplePerf, List.filter, List.foldl])

/-- C8 counterexample: a weak-areas record listing Algebra (0.5) before
Geometry (0.3) yields the recommendations in that entry order, although
Geometry's rate is strictly smaller — the output is not sorted by
ascending rate. -/
theorem generateRecommendations_unsorted_cex :
    (generateRecommendations unsortedWeakAreas).map StudyRecommendation.category =
      [.algebra, .geometry]
    ∧ jsLt (.num (3 / 10)) (.num (1 / 2)) = true := by
  constructor
  · norm_num [generateRecommendations, unsortedWeakAreas, recommendStep, jsLt,
      List.foldl, mkRecommendation]
  · norm_num [jsLt]

/-- C8 (amended): `generateRecommendations` yields exactly one
recommendation per entry whose rate satisfies the JS comparison
`rate < 0.7`, in the record's entry (insertion) order — it does not sort
by rate — and each recommendation's justification string embeds the rate
rounded to a whole percentage (`Math.round(score * 100)`). -/
theorem generateRecommendations_entry_order (weakAreas : JSRecord) :
    generateRecommendations weakAreas =
      (weakAreas.filter (fun e => jsLt e.2 (.num (7 / 10)))).map
        (fun e => mkRecommendation e.1 e.2)
    ∧ ∀ r ∈ generateRecommendations weakAreas, ∃ e ∈ weakAreas,
        r.category = e.1 ∧ jsLt e.2 (.num (7 / 10)) = true ∧
        r.reason = "Your success rate of " ++ roundedPctString e.2
          ++ "% indicates room for improvement" := by
  constructor
  · simpa using foldl_recommendStep weakAreas []
  · intro r hr
    rw [generateRecommendations, foldl_recommendStep weakAreas []] at hr
    simp only [List.nil_append, List.mem_map, List.mem_filter] at hr
    obtain ⟨e, ⟨he, hlt⟩, rfl⟩ := hr
    exact ⟨e, he, rfl, hlt, rfl⟩

/-- C3: `predictSATScore` computes each section score as
`Math.round((correctSum / totalSum) * 800)` with `0` for a section whose
totals sum to zero (no division fault is possible), the total is the sum
of the two section scores, and 8/10 quantitative with 6/10 verbal yields
640, 480 and 1120. -/
theorem predictSATScore_spec :
    (∀ mathPerformances verbalPerformances : List UserPerformance,
      predictSATScore mathPerformances verbalPerformances =
        { mathScore := sectionScoreSpec mathPerformances
        , verbalScore := sectionScoreSpec verbalPerformances
        , totalScore := sectionScoreSpec mathPerformances + sectionScoreSpec verbalPerformances })
    ∧ predictSATScore [examplePerf .algebra 8 10] [examplePerf .grammar 6 10] =
        { mathScore := 640, verbalScore := 480, totalScore := 1120 } := by
  constructor
  · intro mathPerformances verbalPerformances
    have hone : ∀ l : List UserPerformance,
        jsRound ((if 0 < l.foldl (fun sum perf => sum + perf.totalQuestions) 0 then
            ((l.foldl (fun sum perf => sum + perf.correctAnswers) 0 : ℕ) : ℚ) /
              ((l.foldl (fun sum perf => sum + perf.totalQuestions) 0 : ℕ) : ℚ)
          else 0) * 800) = sectionScoreSpec l := by
      intro l
      rw [foldl_correct_sum l 0, foldl_total_sum l 0]
      simp only [Nat.zero_add]
      unfold sectionScoreSpec
      rcases eq_or_ne ((l.map (·.totalQuestions)).sum) 0 with h0 | h0
      · rw [if_pos h0, h0]
        norm_num [jsRound]
      · rw [if_neg h0, if_pos (Nat.pos_of_ne_zero h0)]
    unfold predictSATScore
    simp only [SATPrediction.mk.injEq]
    exact ⟨hone mathPerformances, hone verbalPerformances,
      by rw [hone mathPerformances, hone verbalPerformances]⟩
  · norm_num [predictSATScore, examplePerf, List.foldl, jsRound]

/-- C7: on any of the three failure classes (missing API keys, transport
failure, response-parse failure) `generateAIQuestions` propagates nothing:
it returns exactly the `count` template questions of
`getMockQuestionsForCategory`, every one tagged `isGenerated`. -/
theorem generateAIQuestions_fallback (outcome : GenOutcome) (now : ℕ)
    (category : QuestionCategory) (difficulty : QuestionDifficulty) (count : ℕ)
    (h : outcome.isFailure = true) :
    generateAIQuestions outcome now category difficulty count =
      getMockQuestionsForCategory now category difficulty count
    ∧ (generateAIQuestions outcome now category difficulty count).length = count
    ∧ ∀ q ∈ generateAIQuestions outcome now category difficulty count,
        q.isGenerated = true := by
  have heq : generateAIQuestions outcome now category difficulty count =
      getMockQuestionsForCategory now category difficulty count := by
    cases outcome with
    | noApiKeys => rfl
    | transportFailure => rfl
    | parseFailure => rfl
    | success payload => simp [GenOutcome.isFailure] at h
  refine ⟨heq, ?_, ?_⟩
  · rw [heq]
    simp [getMockQuestionsForCategory]
  · intro q hq
    rw [heq] at hq
    simp only [getMockQuestionsForCategory, List.mem_map] at hq
    obtain ⟨i, _, rfl⟩ := hq
    rfl

/-- C7 witness: with unconfigured API keys and `count = 2`, the fallback
returns the two template questions, both tagged as generated. -/
theorem generateAIQuestions_fallback_witness :
    (generateAIQuestions .noApiKeys 7 .algebra .Medium 2).length = 2
    ∧ ∀ q ∈ generateAIQuestions .noApiKeys 7 .algebra .Medium 2, q.isGenerated = true := by
  have h := generateAIQuestions_fallback .noApiKeys 7 .algebra .Medium 2 rfl
  exact ⟨h.2.1, h.2.2⟩

theorem get_cons_set_perm {α : Type} (xs : List α) (m : ℕ) (x : α) (h : m < xs.length) :
    List.Perm (xs.get ⟨m, h⟩ :: xs.set m x) (x :: xs) := by
  induction xs generalizing m with
  | nil => simp at h
  | cons y ys ih =>
      cases m with
      | zero => exact List.Perm.swap x y ys
      | succ k =>
          have hk : k < ys.length := by simpa using h
          exact (List.Perm.swap y ((y :: ys).get ⟨k + 1, h⟩) (ys.set k x)).trans
            (((ih k hk).cons y).trans (List.Perm.swap x y ys))

theorem perm_set_set {α : Type} (l : List α) (i j : ℕ) (hi : i < l.length)
    (hj : j < l.length) :
    List.Perm ((l.set i (l.get ⟨j, hj⟩)).set j (l.get ⟨i, hi⟩)) l := by
  induction l generalizing i j with
  | nil => simp at hi
  | cons x xs ih =>
      cases i with
      | zero =>
          cases j with
          | zero => exact List.Perm.refl _
          | succ m =>
              have hm : m < xs.length := by simpa using hj
              exact get_cons_set_perm xs m x hm
      | succ n =>
          cases j with
          | zero =>
              have hn : n < xs.length := by simpa using hi
              exact get_cons_set_perm xs n x hn
          | succ m =>
              have hn : n < xs.length := by simpa using hi
              have hm : m < xs.length := by simpa using hj
              exact (ih n m hn hm).cons x

theorem listSwap_perm {α : Type} (l : List α) (i j : ℕ) :
    List.Perm (listSwap l i j) l := by
  cases h1 : l.get? i with
  | none =>
      have : listSwap l i j = l := by
        unfold listSwap
        rw [h1]
      rw [this]
  | some a =>
      cases h2 : l.get? j with
      | none =>
          have : listSwap l i j = l := by
            unfold listSwap
            rw [h1, h2]
          rw [this]
      | some b =>
          obtain ⟨hi, ha⟩ := List.get?_eq_some.mp h1
          obtain ⟨hj, hb⟩ := List.get?_eq_some.mp h2
          have : listSwap l i j = (l.set i b).set j a := by
            unfold listSwap
            rw [h1, h2]
          rw [this, ← ha, ← hb]
          exact perm_set_set l i j hi hj

theorem shuffleLoop_perm {α : Type} : ∀ (tape : List ℕ) (i : ℕ) (l : List α),
    List.Perm (shuffleLoop tape i l) l
  | tape, 0, l => by
      simp only [shuffleLoop]
      exact List.Perm.refl l
  | [], _ + 1, l => by
      simp only [shuffleLoop]
      exact List.Perm.refl l
  | r :: tape, i + 1, l => by
      simp only [shuffleLoop]
      exact (shuffleLoop_perm tape i (listSwap l (i + 1) (r % (i + 2)))).trans
        (listSwap_perm l (i + 1) (r % (i + 2)))

theorem shuffleArray_perm {α : Type} (tape : List ℕ) (l : List α) :
    List.Perm (shuffleArray tape l) l :=
  shuffleLoop_perm tape (l.length - 1) l

theorem shuffleArray_length {α : Type} (tape : List ℕ) (l : List α) :
    (shuffleArray tape l).length = l.length :=
  (shuffleArray_perm tape l).length_eq

theorem nodup_map_of_subperm {α β : Type} (f : α → β) {l₁ l₂ : List α}
    (h : List.Subperm l₁ l₂) (hn : (l₂.map f).Nodup) : (l₁.map f).Nodup := by
  obtain ⟨l, hp, hs⟩ := h
  exact (hp.map f).nodup (hn.sublist (hs.map f))

theorem getQuestions_subperm (aiPool : List Question) (config : QuizConfig)
    (tape1 tape2 : List ℕ) (outcomes : QuestionCategory → GenOutcome) (now : ℕ) :
    List.Subperm (getQuestions aiPool config tape1 tape2 outcomes now)
      (assembleUniverse aiPool config outcomes now) := by
  simp only [getQuestions, assembleUniverse]
  have hp1 := shuffleArray_perm tape1 (matchingUniverse aiPool config)
  have hlen := shuffleArray_length tape1 (matchingUniverse aiPool config)
  by_cases hcond : config.useAI = true ∧
      (shuffleArray tape1 (matchingUniverse aiPool config)).length < config.count
  · have hcond' : config.useAI = true ∧
        (matchingUniverse aiPool config).length < config.count := ⟨hcond.1, hlen ▸ hcond.2⟩
    rw [if_pos hcond, if_pos hcond', hlen]
    exact ((List.take_sublist _ _).subperm).trans
      (((shuffleArray_perm tape2 _).trans (hp1.append_right _)).subperm)
  · have hcond' : ¬(config.useAI = true ∧
        (matchingUniverse aiPool config).length < config.count) :=
      fun hc => hcond ⟨hc.1, by rw [hlen]; exact hc.2⟩
    rw [if_neg hcond, if_neg hcond']
    exact ((List.take_sublist _ _).subperm).trans hp1.subperm

/-- C4: the assembled question list never exceeds `config.count` questions;
its identifiers are duplicate-free whenever the candidate universe it draws
from (catalog matches, pool matches and the converted generated batches)
has duplicate-free identifiers; and with AI augmentation off and a matching
universe smaller than `config.count` it returns exactly the matching
questions (as a permutation) — a short result, not an error. -/
theorem getQuestions_assembly (aiPool : List Question) (config : QuizConfig)
    (tape1 tape2 : List ℕ) (outcomes : QuestionCategory → GenOutcome) (now : ℕ) :
    (getQuestions aiPool config tape1 tape2 outcomes now).length ≤ config.count
    ∧ (((assembleUniverse aiPool config outcomes now).map Question.id).Nodup →
        ((getQuestions aiPool config tape1 tape2 outcomes now).map Question.id).Nodup)
    ∧ (config.useAI = false →
        (matchingUniverse aiPool config).length < config.count →
        List.Perm (getQuestions aiPool config tape1 tape2 outcomes now)
          (matchingUniverse aiPool config)) := by
  refine ⟨?_, ?_, ?_⟩
  · simp only [getQuestions]
    exact List.length_take_le _ _
  · intro hN
    exact nodup_map_of_subperm Question.id
      (getQuestions_subperm aiPool config tape1 tape2 outcomes now) hN
  · intro hAI hshort
    simp only [getQuestions]
    have hlen := shuffleArray_length tape1 (matchingUniverse aiPool config)
    have hcond : ¬(config.useAI = true ∧
        (shuffleArray tape1 (matchingUniverse aiPool config)).length < config.count) := by
      rintro ⟨h1, -⟩
      rw [hAI] at h1
      exact Bool.false_ne_true h1
    rw [if_neg hcond, List.take_of_length_le (by rw [hlen]; exact le_of_lt hshort)]
    exact shuffleArray_perm tape1 (matchingUniverse aiPool config)

/-- C4 witness: an Algebra-only, no-AI request for 10 questions against the
catalog's two Algebra questions returns exactly those two, in some order,
with distinct identifiers and without error. -/
theorem getQuestions_assembly_witness :
    (getQuestions [] cfgNoAI [] [] (fun _ => GenOutcome.noApiKeys) 0).length ≤ 10
    ∧ ((getQuestions [] cfgNoAI [] [] (fun _ => GenOutcome.noApiKeys) 0).map Question.id).Nodup
    ∧ List.Perm (getQuestions [] cfgNoAI [] [] (fun _ => GenOutcome.noApiKeys) 0)
        (matchingUniverse [] cfgNoAI) := by
  have h := getQuestions_assembly [] cfgNoAI [] [] (fun _ => GenOutcome.noApiKeys) 0
  exact ⟨h.1, h.2.1 (by decide), h.2.2 rfl (by decide)⟩

/-- C9 counterexample: a parsed generation response whose
`correctAnswerIndex` is 7 against four options flows through the assembly
path unvalidated: the session receives a question violating
`0 <= correctAnswer < options.length`. -/
theorem assembly_range_cex :
    ∃ q ∈ getQuestions [] cfgAI [] [] (fun _ => GenOutcome.success badPayload) 0,
      (q.options.length : ℤ) ≤ q.correctAnswer := by decide

/-- C9 (amended): catalog questions and fallback template questions satisfy
`0 <= correctAnswer < options.length`; a question built from a parsed
generation response carries the response's `correctAnswerIndex` and
`options` through unvalidated, so it satisfies the invariant exactly when
the response payload does. -/
theorem assembly_correctAnswer_range :
    (∀ q ∈ mockQuestions, 0 ≤ q.correctAnswer ∧ q.correctAnswer < (q.options.length : ℤ))
    ∧ (∀ (now : ℕ) (category : QuestionCategory) (difficulty : QuestionDifficulty)
        (count : ℕ), ∀ q ∈ getMockQuestionsForCategory now category difficulty count,
          0 ≤ q.correctAnswer ∧ q.correctAnswer < (q.options.length : ℤ))
    ∧ (∀ (payload : List ParsedQuestion) (now : ℕ) (category : QuestionCategory)
        (difficulty : QuestionDifficulty) (count : ℕ),
        ∀ q ∈ generateAIQuestions (.success payload) now category difficulty count,
          ∃ p ∈ payload, q.correctAnswer = p.correctAnswerIndex ∧ q.options = p.options) := by
  refine ⟨by decide, ?_, ?_⟩
  · intro now category difficulty count q hq
    simp only [getMockQuestionsForCategory, List.mem_map] at hq
    obtain ⟨i, -, rfl⟩ := hq
    exact ⟨by simp, by simp⟩
  · intro payload now category difficulty count q hq
    simp only [generateAIQuestions, List.mem_map] at hq
    obtain ⟨e, he, rfl⟩ := hq
    exact ⟨e.2, List.snd_mem_of_mem_enum he, rfl, rfl⟩

theorem handleSelectAnswer_questions (c : ℤ) (s : QuizState) :
    (handleSelectAnswer c s).questions = s.questions := by
  unfold handleSelectAnswer
  split <;> rfl

theorem handleSelectAnswer_index (c : ℤ) (s : QuizState) :
    (handleSelectAnswer c s).currentQuestionIndex = s.currentQuestionIndex := by
  unfold handleSelectAnswer
  split <;> rfl

theorem handleSelectAnswer_timePerQuestion (c : ℤ) (s : QuizState) :
    (handleSelectAnswer c s).timePerQuestion = s.timePerQuestion := by
  unfold handleSelectAnswer
  split <;> rfl

theorem handleSelectAnswer_selected (c : ℤ) (s : QuizState)
    (h : s.isAnswerSubmitted = false) :
    (handleSelectAnswer c s).selectedAnswer = some c := by
  simp [handleSelectAnswer, h]

theorem handleSubmitAnswer_questions (s : QuizState) :
    (handleSubmitAnswer s).questions = s.questions := by
  unfold handleSubmitAnswer
  cases h : s.selectedAnswer <;> rfl

theorem handleSubmitAnswer_index (s : QuizState) :
    (handleSubmitAnswer s).currentQuestionIndex = s.currentQuestionIndex := by
  unfold handleSubmitAnswer
  cases h : s.selectedAnswer <;> rfl

theorem handleSubmitAnswer_timePerQuestion (s : QuizState) :
    (handleSubmitAnswer s).timePerQuestion = s.timePerQuestion := by
  unfold handleSubmitAnswer
  cases h : s.selectedAnswer <;> rfl

theorem answerAll_run (inputs : List (ℤ × ℚ)) : ∀ (qs : List Question) (k : ℕ)
    (s : QuizState),
    s.questions = qs → s.currentQuestionIndex = k → s.isAnswerSubmitted = false →
    s.timePerQuestion.length = k → k < qs.length → inputs.length = qs.length - k →
    ∃ sFinal payload,
      answerAll inputs s = (sFinal, some (.results payload))
      ∧ sFinal.timePerQuestion.length = qs.length - 1
      ∧ payload.totalQuestions = qs.length
      ∧ payload.averageTimePerQuestion =
          jsDivQ (sFinal.timePerQuestion.foldl (· + ·) 0)
            (sFinal.timePerQuestion.length : ℚ) := by
  induction inputs with
  | nil =>
      intro qs k s hq hk hsub htpq hklen hlen
      simp at hlen
      omega
  | cons ct rest ih =>
      obtain ⟨c, t⟩ := ct
      intro qs k s hq hk hsub htpq hklen hlen
      set s2 := handleSubmitAnswer (handleSelectAnswer c s) with hs2
      have h2q : s2.questions = qs := by
        rw [hs2, handleSubmitAnswer_questions, handleSelectAnswer_questions, hq]
      have h2idx : s2.currentQuestionIndex = k := by
        rw [hs2, handleSubmitAnswer_index, handleSelectAnswer_index, hk]
      have h2tpq : s2.timePerQuestion = s.timePerQuestion := by
        rw [hs2, handleSubmitAnswer_timePerQuestion, handleSelectAnswer_timePerQuestion]
      by_cases hlast : k < qs.length - 1
      · -- a non-final question: the index advances and the effect runs
        have hstep : answerStep c t s =
            (questionTransitionEffect t { s2 with currentQuestionIndex := k + 1 }, none) := by
          unfold answerStep handleNextQuestion
          rw [← hs2, h2idx, h2q]
          rw [if_pos hlast]
        set s3 := questionTransitionEffect t { s2 with currentQuestionIndex := k + 1 } with hs3
        have h3q : s3.questions = qs := by
          rw [hs3]
          simpa [questionTransitionEffect] using h2q
        have h3idx : s3.currentQuestionIndex = k + 1 := by
          rw [hs3]
          simp [questionTransitionEffect]
        have h3sub : s3.isAnswerSubmitted = false := by
          rw [hs3]
          simp [questionTransitionEffect]
        have h3tpq : s3.timePerQuestion.length = k + 1 := by
          rw [hs3]
          simp [questionTransitionEffect, h2tpq, htpq]
        have hklen3 : k + 1 < qs.length := by omega
        have hlen3 : rest.length = qs.length - (k + 1) := by
          simp at hlen
          omega
        obtain ⟨sFinal, payload, hrun, htl, htot, havg⟩ :=
          ih qs (k + 1) s3 h3q h3idx h3sub h3tpq hklen3 hlen3
        refine ⟨sFinal, payload, ?_, htl, htot, havg⟩
        rw [← hrun]
        simp only [answerAll, hstep]
      · -- the final question: finishQuiz materializes the payload
        have hstep : answerStep c t s = (s2, some (.results (finishQuiz t s2))) := by
          unfold answerStep handleNextQuestion
          rw [← hs2, h2idx, h2q]
          rw [if_neg hlast]
        refine ⟨s2, finishQuiz t s2, ?_, ?_, ?_, ?_⟩
        · simp only [answerAll, hstep]
        · rw [h2tpq, htpq]
          omega
        · simp [finishQuiz, h2q]
        · rfl

/-- C1: a session whose last question is skipped shows the stale-snapshot
fault: `handleSkipQuestion` queues `skipped + 1` and then calls `finishQuiz`
in the same handler, so the committed state records the skip
(`skipped = 1`) but the materialized Results payload does not — for a
one-question session it reports `correct = incorrect = skipped = 0` with
`totalQuestions = 1`, and `0 + 0 + 0 ≠ 1`. -/
theorem finishQuiz_skip_last_undercounts :
    ((handleSkipQuestion 5 (initState [mkQ 0] 0)).2.bind NavEvent.payload?).map
        (fun p => (p.correct, p.incorrect, p.skipped, p.totalQuestions)) =
      some (0, 0, 0, 1)
    ∧ (handleSkipQuestion 5 (initState [mkQ 0] 0)).1.results.skipped = 1
    ∧ (0 + 0 + 0 : ℕ) ≠ 1 := by
  refine ⟨by decide, by decide, by decide⟩

/-- C5 counterexample: after answering 3 questions of a 10-question
session, the confirmed Quit control emits `navigation.goBack()` and no
Results payload at all — nothing marks the remaining 7 questions as
skipped; the session's tallies are simply discarded. -/
theorem handleQuitQuiz_no_result_cex :
    (handleQuitQuiz sAfter3).2 = some .back
    ∧ (handleQuitQuiz sAfter3).2.bind NavEvent.payload? = none
    ∧ sAfter3.currentQuestionIndex = 3
    ∧ sAfter3.questions.length = 10
    ∧ sAfter3.results.correct + sAfter3.results.incorrect = 3 := by
  refine ⟨rfl, rfl, by decide, by decide, by decide⟩

/-- C5 (amended): quitting a session from any state navigates back without
materializing any SessionResult and without touching the session state;
the quiz warns that progress will be lost, and it is. -/
theorem handleQuitQuiz_discards (s : QuizState) :
    handleQuitQuiz s = (s, some .back)
    ∧ (handleQuitQuiz s).2.bind NavEvent.payload? = none :=
  ⟨rfl, rfl⟩

/-- C6 counterexample: submitting twice without advancing raises nothing
and double-counts — after the second call the `correct` tally is 2 for a
single submitted answer. -/
theorem handleSubmitAnswer_twice_cex :
    (handleSubmitAnswer (handleSubmitAnswer
        (handleSelectAnswer 0 (initState [mkQ 0] 0)))).results.correct = 2
    ∧ (handleSubmitAnswer (handleSelectAnswer 0 (initState [mkQ 0] 0))).results.correct = 1 := by
  refine ⟨by decide, by decide⟩

theorem handleSubmitAnswer_counts (s : QuizState) (c : ℤ) (h : s.selectedAnswer = some c) :
    (handleSubmitAnswer s).results.correct + (handleSubmitAnswer s).results.incorrect
      = s.results.correct + s.results.incorrect + 1
    ∧ (handleSubmitAnswer s).results.skipped = s.results.skipped
    ∧ (handleSubmitAnswer s).selectedAnswer = some c := by
  unfold handleSubmitAnswer
  rw [h]
  dsimp only
  refine ⟨?_, rfl, rfl⟩
  split_ifs <;> omega

/-- C6 (amended): `handleSubmitAnswer` has no already-submitted guard and
raises no error: with a selection present, a second invocation without an
intervening advance increments the correct/incorrect tallies again
(double-counting); only the UI prevents this, by disabling the Submit
button once `isAnswerSubmitted` is set. -/
theorem handleSubmitAnswer_no_guard (s : QuizState) (c : ℤ)
    (h : s.selectedAnswer = some c) :
    (handleSubmitAnswer (handleSubmitAnswer s)).results.correct
        + (handleSubmitAnswer (handleSubmitAnswer s)).results.incorrect
      = s.results.correct + s.results.incorrect + 2
    ∧ (handleSubmitAnswer (handleSubmitAnswer s)).results.skipped = s.results.skipped := by
  obtain ⟨h1, h2, h3⟩ := handleSubmitAnswer_counts s c h
  obtain ⟨h4, h5, -⟩ := handleSubmitAnswer_counts (handleSubmitAnswer s) c h3
  exact ⟨by omega, by rw [h5, h2]⟩

/-- C6 witness: double submit at a concrete state double-counts. -/
theorem handleSubmitAnswer_no_guard_witness :
    (handleSubmitAnswer (handleSubmitAnswer
        (handleSelectAnswer 1 (initState [mkQ 0] 0)))).results.correct
      + (handleSubmitAnswer (handleSubmitAnswer
          (handleSelectAnswer 1 (initState [mkQ 0] 0)))).results.incorrect
      = (handleSelectAnswer 1 (initState [mkQ 0] 0)).results.correct
        + (handleSelectAnswer 1 (initState [mkQ 0] 0)).results.incorrect + 2
    ∧ (handleSubmitAnswer (handleSubmitAnswer
        (handleSelectAnswer 1 (initState [mkQ 0] 0)))).results.skipped
      = (handleSelectAnswer 1 (initState [mkQ 0] 0)).results.skipped :=
  handleSubmitAnswer_no_guard (handleSelectAnswer 1 (initState [mkQ 0] 0)) 1 (by decide)

/-- C10 counterexample: driving a three-question session skip, skip,
answer records four elapsed-time entries against three questions (each
skipped question is appended twice: once by the skip handler and once by
the question-transition effect), so the recorded list is not strictly
shorter than `totalQuestions`. -/
theorem timePerQuestion_overcount_cex :
    skipSkipAnswerTrace.1.timePerQuestion.length = 4
    ∧ (skipSkipAnswerTrace.2.bind NavEvent.payload?).map ResultsPayload.totalQuestions =
        some 3
    ∧ ¬(4 < 3) := by
  refine ⟨by decide, by decide, by decide⟩

/-- C10 (amended): in a session in which every question is answered
(select, submit, next), the finish snapshot holds exactly
`totalQuestions - 1` elapsed-time entries — the final answered question's
time is never appended — and `averageTimePerQuestion` is the JS division
of their sum by their count, which for a one-question session is
`0 / 0 = NaN`. -/
theorem answerAll_time_entries (qs : List Question) (h1 : qs ≠ [])
    (inputs : List (ℤ × ℚ)) (h2 : inputs.length = qs.length) (t0 : ℚ) :
    ∃ sFinal payload,
      answerAll inputs (initState qs t0) = (sFinal, some (.results payload))
      ∧ sFinal.timePerQuestion.length = qs.length - 1
      ∧ sFinal.timePerQuestion.length < qs.length
      ∧ payload.totalQuestions = qs.length
      ∧ payload.averageTimePerQuestion =
          jsDivQ (sFinal.timePerQuestion.foldl (· + ·) 0)
            (sFinal.timePerQuestion.length : ℚ)
      ∧ (qs.length = 1 → payload.averageTimePerQuestion = .nan) := by
  have hpos : 0 < qs.length := List.length_pos.mpr h1
  obtain ⟨sF, p, hrun, htl, htot, havg⟩ :=
    answerAll_run inputs qs 0 (initState qs t0) rfl rfl rfl rfl hpos (by omega)
  refine ⟨sF, p, hrun, htl, by omega, htot, havg, ?_⟩
  intro h1len
  have hnil : sF.timePerQuestion = [] := List.length_eq_zero.mp (by omega)
  rw [havg, hnil]
  simp [jsDivQ]

/-- C10 witness: a one-question session answered at time 5 finishes with
an empty elapsed-time list and `averageTimePerQuestion = NaN`. -/
theorem answerAll_time_entries_witness :
    ∃ sFinal payload,
      answerAll [((0 : ℤ), (5 : ℚ))] (initState [mkQ 0] 0) =
        (sFinal, some (.results payload))
      ∧ sFinal.timePerQuestion.length = [mkQ 0].length - 1
      ∧ sFinal.timePerQuestion.length < [mkQ 0].length
      ∧ payload.totalQuestions = [mkQ 0].length
      ∧ payload.averageTimePerQuestion =
          jsDivQ (sFinal.timePerQuestion.foldl (· + ·) 0)
            (sFinal.timePerQuestion.length : ℚ)
      ∧ ([mkQ 0].length = 1 → payload.averageTimePerQuestion = .nan) :=
  answerAll_time_entries [mkQ 0] (by decide) [((0 : ℤ), (5 : ℚ))] (by decide) 0

/-- C4 counterexample: a two-category AI-augmented request whose fallback
batches are generated within the same `Date.now()` millisecond returns the
identifier `gen_0_0` twice — `getQuestions` has no deduplication step, so
colliding generated identifiers reach the session. -/
theorem getQuestions_duplicate_id_cex :
    ((getQuestions [] { categories := some [.algebra, .geometry], difficulty := none, count := 10, useAI := true } [] [] (fun _ => GenOutcome.noApiKeys) 0).map Question.id).count "gen_0_0" = 2
    ∧ (getQuestions [] { categories := some [.algebra, .geometry], difficulty := none, count := 10, useAI := true } [] [] (fun _ => GenOutcome.noApiKeys) 0).length = 10 := by
  refine ⟨by decide, by decide⟩
